import Mathlib

/-!
Verification of the Masterblog post-store core (`backend/backend_app.py`).

The Python handlers each perform a load → pure logic → save cycle over the
JSON-file-backed collection.  We embed the pure logic as functions over
`List Post`; each mutating handler returns the response (`Except ApiError …`)
together with the collection that is persisted afterwards (equal to the input
collection whenever the handler returns before calling `save_posts`).
Python string methods (`strip`, `lower`, the `in` operator, `str()`) are
embedded as `pystrip`, `pylower`, `pyIn`, `pyStr` over `String`
(whitespace restricted to ASCII, which is all the repository's data uses).
The persistence adapter (`load_posts` / `save_posts`, JSON file) is embedded
further below with an executable serializer and parser.
-/

/-- A blog post record: the dictionaries `{"id": …, "title": …, "content": …}`
stored in `posts.json`. -/
structure Post where
  id : Nat
  title : String
  content : String
deriving DecidableEq, Repr

/-- List-level whitespace strip, both ends: Python `str.strip()`. -/
def stripList (l : List Char) : List Char :=
  ((l.dropWhile Char.isWhitespace).reverse.dropWhile Char.isWhitespace).reverse

/-- Python `s.strip()`. -/
def pystrip (s : String) : String := ⟨stripList s.data⟩

/-- Python `s.lower()`. -/
def pylower (s : String) : String := ⟨s.data.map Char.toLower⟩

/-- Does `hay` contain `needle` as a contiguous run?  (`needle in hay`). -/
def hasSub (needle : List Char) : List Char → Bool
  | [] => needle.isEmpty
  | c :: t => needle.isPrefixOf (c :: t) || hasSub needle t

/-- Python `needle in hay` on strings. -/
def pyIn (needle hay : String) : Bool := hasSub needle.data hay.data

/-- JSON values that can appear as the `title` / `content` fields of a
request body in this API: `null` or a string. -/
inductive JVal where
  | null
  | str (s : String)
deriving DecidableEq, Repr

/-- Python `str(v)` on a JSON field value: `str(None) = "None"`. -/
def pyStr : JVal → String
  | .null => "None"
  | .str s => s

/-- Python `data.get(k) or ""`: absent and `null` (and `""`) coerce to `""`. -/
def orEmpty : Option JVal → String
  | none => ""
  | some .null => ""
  | some (.str s) => s

/-- The typed outcomes of the handlers: 404 and 400 responses. -/
inductive ApiError where
  | notFound
  | invalidInput (msg : String)
deriving DecidableEq, Repr

/-- `next_id`: `max([p["id"] for p in posts], default=0) + 1`. -/
def next_id (posts : List Post) : Nat :=
  (posts.map Post.id).foldr max 0 + 1

/-- `get_post` (GET handler): first post whose id matches, else 404. -/
def get_post (post_id : Nat) (posts : List Post) : Except ApiError Post :=
  match posts.find? (fun p => p.id == post_id) with
  | some p => .ok p
  | none => .error .notFound

/-- `create_post` (POST handler): coerce and strip both fields, reject if
either is empty, else append `{next_id, title, content}` and save.  Returns
the response and the persisted collection. -/
def create_post (titleOpt contentOpt : Option JVal) (posts : List Post) :
    Except ApiError Post × List Post :=
  let title := pystrip (orEmpty titleOpt)
  let content := pystrip (orEmpty contentOpt)
  if title = "" ∨ content = "" then
    (.error (.invalidInput "Both 'title' and 'content' are required"), posts)
  else
    let post : Post := ⟨next_id posts, title, content⟩
    (.ok post, posts ++ [post])

/-- One supplied field of the PUT body: absent keeps the current value;
present is coerced with `str`, stripped, and rejected when empty. -/
def checkField (vOpt : Option JVal) (cur : String) (msg : String) :
    Except ApiError String :=
  match vOpt with
  | none => .ok cur
  | some v =>
    let s := pystrip (pyStr v)
    if s = "" then .error (.invalidInput msg) else .ok s

/-- The `for post in posts` loop of the PUT handler: on the first id match,
validate title then content and rebuild the post; posts before the match are
kept in place.  Returns the updated post and the collection to be saved. -/
def update_loop (post_id : Nat) (titleOpt contentOpt : Option JVal) :
    List Post → Except ApiError (Post × List Post)
  | [] => .error .notFound
  | p :: rest =>
    if p.id = post_id then
      match checkField titleOpt p.title "Title cannot be empty" with
      | .error e => .error e
      | .ok t =>
        match checkField contentOpt p.content "Content cannot be empty" with
        | .error e => .error e
        | .ok c => .ok (⟨p.id, t, c⟩, ⟨p.id, t, c⟩ :: rest)
    else
      match update_loop post_id titleOpt contentOpt rest with
      | .error e => .error e
      | .ok (q, l) => .ok (q, p :: l)

/-- `update_post` (PUT handler).  `save_posts` runs only on success, so on
any error the persisted collection is the input collection. -/
def update_post (post_id : Nat) (titleOpt contentOpt : Option JVal)
    (posts : List Post) : Except ApiError Post × List Post :=
  match update_loop post_id titleOpt contentOpt posts with
  | .ok (p, l) => (.ok p, l)
  | .error e => (.error e, posts)

/-- `delete_post` (DELETE handler): filter out the id; 404 when nothing was
removed, else save the filtered collection and answer 204 (no payload). -/
def delete_post (post_id : Nat) (posts : List Post) :
    Except ApiError Unit × List Post :=
  let new_posts := posts.filter (fun p => p.id != post_id)
  if new_posts.length = posts.length then (.error .notFound, posts)
  else (.ok (), new_posts)

/-- `search_posts` (GET /search handler): strip both query params; with no
effective query answer `[]`; otherwise filter by case-insensitive substring
containment on title, then on content. -/
def search_posts (titleArg contentArg : Option String) (posts : List Post) :
    List Post :=
  let title_q := pystrip (titleArg.getD "")
  let content_q := pystrip (contentArg.getD "")
  if title_q = "" ∧ content_q = "" then []
  else
    let results := posts
    let results :=
      if title_q ≠ "" then
        results.filter (fun p => pyIn (pylower title_q) (pylower p.title))
      else results
    let results :=
      if content_q ≠ "" then
        results.filter (fun p => pyIn (pylower content_q) (pylower p.content))
      else results
    results

/-- The seed collection written by `load_posts` on first use. -/
def seedPosts : List Post :=
  [⟨1, "First post", "This is the first post."⟩,
   ⟨2, "Second post", "This is the second post."⟩]

/-! ### Helper lemmas about `stripList` / `pystrip` -/

theorem head?_stripList_not (l : List Char) :
    ∀ c ∈ (stripList l).head?, ¬ c.isWhitespace := by
  intro c hc
  unfold stripList at hc
  rw [List.head?_reverse] at hc
  obtain ⟨w, hw⟩ :=
    List.dropWhile_suffix (l := (l.dropWhile Char.isWhitespace).reverse)
      Char.isWhitespace
  have hA : (l.dropWhile Char.isWhitespace).head? = some c := by
    rw [← List.getLast?_reverse, ← hw, List.getLast?_append]
    simp only [Option.mem_def] at hc
    rw [hc]
    rfl
  have hd := List.head?_dropWhile_not Char.isWhitespace l
  rw [hA] at hd
  simp [hd]

theorem getLast?_stripList_not (l : List Char) :
    ∀ c ∈ (stripList l).getLast?, ¬ c.isWhitespace := by
  intro c hc
  unfold stripList at hc
  rw [List.getLast?_reverse] at hc
  have hd :=
    List.head?_dropWhile_not Char.isWhitespace
      (l.dropWhile Char.isWhitespace).reverse
  simp only [Option.mem_def] at hc
  rw [hc] at hd
  simp [hd]

theorem stripList_of_trimmed (m : List Char)
    (h1 : ∀ c ∈ m.head?, ¬ c.isWhitespace)
    (h2 : ∀ c ∈ m.getLast?, ¬ c.isWhitespace) :
    stripList m = m := by
  have drop_eq : ∀ (k : List Char), (∀ c ∈ k.head?, ¬ c.isWhitespace) →
      k.dropWhile Char.isWhitespace = k := by
    intro k hk
    cases k with
    | nil => rfl
    | cons a t =>
      have : ¬ a.isWhitespace := hk a rfl
      simp [List.dropWhile_cons, this]
  unfold stripList
  rw [drop_eq m h1]
  have h2' : ∀ c ∈ m.reverse.head?, ¬ c.isWhitespace := by
    intro c hc
    rw [List.head?_reverse] at hc
    exact h2 c hc
  rw [drop_eq m.reverse h2', List.reverse_reverse]

theorem stripList_idem (l : List Char) : stripList (stripList l) = stripList l :=
  stripList_of_trimmed _ (head?_stripList_not l) (getLast?_stripList_not l)

theorem pystrip_idem (s : String) : pystrip (pystrip s) = pystrip s := by
  unfold pystrip
  exact congrArg String.mk (stripList_idem s.data)

theorem pystrip_eq_empty_iff (s : String) :
    pystrip s = "" ↔ stripList s.data = [] := by
  constructor
  · intro h
    have := congrArg String.data h
    simpa [pystrip] using this
  · intro h
    simp [pystrip, h]

/-! ### Helper lemmas about `next_id` -/

theorem foldl_max_eq (l : List Nat) (a : Nat) :
    l.foldl max a = max a (l.foldr max 0) := by
  induction l generalizing a with
  | nil => simp
  | cons b t ih =>
    simp only [List.foldl_cons, List.foldr_cons, ih (max a b), Nat.max_assoc]

theorem foldr_max_eq_max?_getD (l : List Nat) :
    l.foldr max 0 = l.max?.getD 0 := by
  cases l with
  | nil => rfl
  | cons a t =>
    simp only [List.max?_cons', Option.getD_some, List.foldr_cons,
      foldl_max_eq t a]

theorem le_foldr_max {l : List Nat} {a : Nat} (h : a ∈ l) :
    a ≤ l.foldr max 0 := by
  induction l with
  | nil => cases h
  | cons b t ih =>
    rcases List.mem_cons.mp h with rfl | h'
    · exact Nat.le_max_left _ _
    · exact Nat.le_trans (ih h') (Nat.le_max_right _ _)

theorem id_lt_next_id {posts : List Post} {q : Post} (h : q ∈ posts) :
    q.id < next_id posts :=
  Nat.lt_succ_of_le (le_foldr_max (List.mem_map.mpr ⟨q, h, rfl⟩))

/-- Concrete collection with ids `{1, 2, 5}` used by the spec's scenarios. -/
def posts125 : List Post := [⟨1, "a", "b"⟩, ⟨2, "c", "d"⟩, ⟨5, "e", "f"⟩]

/-- C1: the id `Create` allocates is `(max existing id, default 0) + 1`;
with ids `{1,2,5}` the next post gets id 6, and after deleting id 5 the next
post gets id 3 (id reuse after the maximum is deleted). -/
theorem create_allocates_max_plus_one :
    (∀ (titleOpt contentOpt : Option JVal) (posts l : List Post) (p : Post),
        create_post titleOpt contentOpt posts = (.ok p, l) →
        p.id = (posts.map Post.id).max?.getD 0 + 1) ∧
    create_post (some (.str "x")) (some (.str "y")) posts125 =
      (.ok ⟨6, "x", "y"⟩, posts125 ++ [⟨6, "x", "y"⟩]) ∧
    delete_post 5 posts125 = (.ok (), [⟨1, "a", "b"⟩, ⟨2, "c", "d"⟩]) ∧
    create_post (some (.str "x")) (some (.str "y")) (delete_post 5 posts125).2 =
      (.ok ⟨3, "x", "y"⟩, (delete_post 5 posts125).2 ++ [⟨3, "x", "y"⟩]) := by
  refine ⟨?_, by rfl, by rfl, by rfl⟩
  intro titleOpt contentOpt posts l p h
  by_cases hc : pystrip (orEmpty titleOpt) = "" ∨ pystrip (orEmpty contentOpt) = ""
  · simp [create_post, hc] at h
  · simp [create_post, hc] at h
    obtain ⟨h1, -⟩ := h
    rw [← h1]
    show next_id posts = (posts.map Post.id).max?.getD 0 + 1
    rw [next_id, foldr_max_eq_max?_getD]

/-- Witness for C1: instantiates the universally quantified part on the
seed collection. -/
theorem create_allocates_max_plus_one_witness :
    create_post (some (.str "t")) (some (.str "c")) seedPosts =
      (.ok ⟨3, "t", "c"⟩, seedPosts ++ [⟨3, "t", "c"⟩]) ∧
    (3 : Nat) = ((seedPosts.map Post.id).max?.getD 0 + 1) := by
  constructor
  · rfl
  · exact create_allocates_max_plus_one.1 (some (.str "t")) (some (.str "c"))
      seedPosts (seedPosts ++ [⟨3, "t", "c"⟩]) ⟨3, "t", "c"⟩ (by rfl)

/-! ### C3: create followed by get -/

theorem get_post_append_new {posts : List Post} {p : Post}
    (h : ∀ q ∈ posts, q.id ≠ p.id) :
    get_post p.id (posts ++ [p]) = .ok p := by
  unfold get_post
  rw [List.find?_append]
  have h1 : posts.find? (fun q => q.id == p.id) = none :=
    List.find?_eq_none.mpr (fun x hx => by simp [h x hx])
  rw [h1]
  simp [List.find?_cons]

/-- C3: for trimmed-non-empty inputs, `Create` appends a post carrying the
trimmed title and content, `Get` on its id returns it, and its id is strictly
greater than every id present beforehand. -/
theorem create_then_get (t c : String) (posts : List Post)
    (ht : pystrip t ≠ "") (hc : pystrip c ≠ "") :
    ∃ p : Post,
      create_post (some (.str t)) (some (.str c)) posts =
        (.ok p, posts ++ [p]) ∧
      p.title = pystrip t ∧ p.content = pystrip c ∧
      get_post p.id (posts ++ [p]) = .ok p ∧
      ∀ q ∈ posts, q.id < p.id := by
  refine ⟨⟨next_id posts, pystrip t, pystrip c⟩, ?_, rfl, rfl, ?_, ?_⟩
  · simp [create_post, orEmpty, ht, hc]
  · exact get_post_append_new (fun q hq => (id_lt_next_id hq).ne)
  · intro q hq
    exact id_lt_next_id hq

/-- Witness for C3 at a concrete input. -/
theorem create_then_get_witness :
    pystrip " T " ≠ "" ∧ pystrip "C" ≠ "" ∧
    ∃ p : Post,
      create_post (some (.str " T ")) (some (.str "C")) seedPosts =
        (.ok p, seedPosts ++ [p]) ∧
      p.title = pystrip " T " ∧ p.content = pystrip "C" ∧
      get_post p.id (seedPosts ++ [p]) = .ok p ∧
      ∀ q ∈ seedPosts, q.id < p.id :=
  ⟨by decide, by decide, create_then_get " T " "C" seedPosts (by decide) (by decide)⟩

/-! ### Characterizations of the update loop -/

theorem checkField_ok {vOpt : Option JVal} {cur s msg : String}
    (h : checkField vOpt cur msg = .ok s) :
    (vOpt = none ∧ s = cur) ∨
    (∃ v, vOpt = some v ∧ s = pystrip (pyStr v) ∧ s ≠ "") := by
  cases vOpt with
  | none =>
    left
    refine ⟨rfl, ?_⟩
    simpa [checkField] using h.symm
  | some v =>
    right
    by_cases hv : pystrip (pyStr v) = ""
    · simp [checkField, hv] at h
    · simp only [checkField, if_neg hv] at h
      exact ⟨v, rfl, by simpa using h.symm, by simp [← Except.ok.injEq cur s] at h ⊢; rw [← h]; exact hv⟩

theorem checkField_some_empty {v : JVal} {cur msg : String}
    (hv : pystrip (pyStr v) = "") :
    checkField (some v) cur msg = .error (.invalidInput msg) := by
  simp [checkField, hv]

theorem checkField_some_valid {v : JVal} {cur msg : String}
    (hv : pystrip (pyStr v) ≠ "") :
    checkField (some v) cur msg = .ok (pystrip (pyStr v)) := by
  simp [checkField, hv]

theorem update_loop_ok {pid : Nat} {tOpt cOpt : Option JVal}
    {posts : List Post} {q : Post} {l : List Post}
    (h : update_loop pid tOpt cOpt posts = .ok (q, l)) :
    ∃ l₁ p l₂, posts = l₁ ++ p :: l₂ ∧ l = l₁ ++ q :: l₂ ∧
      (∀ r ∈ l₁, r.id ≠ pid) ∧ p.id = pid ∧ q.id = p.id ∧
      checkField tOpt p.title "Title cannot be empty" = .ok q.title ∧
      checkField cOpt p.content "Content cannot be empty" = .ok q.content := by
  induction posts generalizing l with
  | nil => simp [update_loop] at h
  | cons p rest ih =>
    rw [update_loop] at h
    by_cases hp : p.id = pid
    · rw [if_pos hp] at h
      cases ht : checkField tOpt p.title "Title cannot be empty" with
      | error e => rw [ht] at h; cases h
      | ok t =>
        rw [ht] at h
        cases hcc : checkField cOpt p.content "Content cannot be empty" with
        | error e => rw [hcc] at h; cases h
        | ok c =>
          rw [hcc] at h
          obtain ⟨hq, hl⟩ : (⟨p.id, t, c⟩ : Post) = q ∧ (⟨p.id, t, c⟩ : Post) :: rest = l := by
            simpa using h
          refine ⟨[], p, rest, rfl, by simp [← hl, ← hq], by simp, hp, ?_, ?_, ?_⟩
          · rw [← hq]
          · rw [← hq]; exact ht
          · rw [← hq]; exact hcc
    · rw [if_neg hp] at h
      cases hrec : update_loop pid tOpt cOpt rest with
      | error e => rw [hrec] at h; cases h
      | ok pr =>
        obtain ⟨q', l'⟩ := pr
        rw [hrec] at h
        obtain ⟨hq, hl⟩ : q' = q ∧ p :: l' = l := by simpa using h
        obtain ⟨l₁, pm, l₂, e1, e2, e3, e4, e5, e6, e7⟩ := ih (hq ▸ hrec)
        exact ⟨p :: l₁, pm, l₂, by simp [e1], by simp [← hl, e2],
          by intro r hr; rcases List.mem_cons.mp hr with rfl | hr'
             · exact hp
             · exact e3 r hr',
          e4, e5, e6, e7⟩

theorem update_loop_title_empty {pid : Nat} {v : JVal} {cOpt : Option JVal}
    {posts : List Post} (hmem : ∃ p ∈ posts, p.id = pid)
    (hv : pystrip (pyStr v) = "") :
    update_loop pid (some v) cOpt posts =
      .error (.invalidInput "Title cannot be empty") := by
  induction posts with
  | nil => simp at hmem
  | cons p rest ih =>
    rw [update_loop]
    by_cases hp : p.id = pid
    · rw [if_pos hp, checkField_some_empty hv]
    · rw [if_neg hp]
      obtain ⟨r, hr, hrid⟩ := hmem
      rcases List.mem_cons.mp hr with rfl | hr'
      · exact absurd hrid hp
      · rw [ih ⟨r, hr', hrid⟩]

theorem update_loop_content_empty {pid : Nat} {tOpt : Option JVal} {w : JVal}
    {posts : List Post} (hmem : ∃ p ∈ posts, p.id = pid)
    (htOpt : ∀ u, tOpt = some u → pystrip (pyStr u) ≠ "")
    (hw : pystrip (pyStr w) = "") :
    update_loop pid tOpt (some w) posts =
      .error (.invalidInput "Content cannot be empty") := by
  induction posts with
  | nil => simp at hmem
  | cons p rest ih =>
    rw [update_loop]
    by_cases hp : p.id = pid
    · rw [if_pos hp]
      have hok : ∃ t, checkField tOpt p.title "Title cannot be empty" = .ok t := by
        cases tOpt with
        | none => exact ⟨p.title, rfl⟩
        | some u => exact ⟨_, checkField_some_valid (htOpt u rfl)⟩
      obtain ⟨t, htok⟩ := hok
      rw [htok, checkField_some_empty hw]
    · rw [if_neg hp]
      obtain ⟨r, hr, hrid⟩ := hmem
      rcases List.mem_cons.mp hr with rfl | hr'
      · exact absurd hrid hp
      · rw [ih ⟨r, hr', hrid⟩]

/-- C2: on an existing post, title is validated before content; a supplied
field that is empty after trimming makes `Update` answer `InvalidInput` and
persist nothing — the persisted collection is exactly the input collection,
with no partial field application. -/
theorem update_invalid_is_atomic (pid : Nat) (posts : List Post)
    (hmem : ∃ p ∈ posts, p.id = pid) :
    (∀ (v : JVal) (cOpt : Option JVal), pystrip (pyStr v) = "" →
      update_post pid (some v) cOpt posts =
        (.error (.invalidInput "Title cannot be empty"), posts)) ∧
    (∀ (tOpt : Option JVal) (w : JVal),
      (∀ u, tOpt = some u → pystrip (pyStr u) ≠ "") →
      pystrip (pyStr w) = "" →
      update_post pid tOpt (some w) posts =
        (.error (.invalidInput "Content cannot be empty"), posts)) := by
  constructor
  · intro v cOpt hv
    rw [update_post, update_loop_title_empty hmem hv]
  · intro tOpt w htOpt hw
    rw [update_post, update_loop_content_empty hmem htOpt hw]

/-- Witness for C2 on the seed collection: empty title, then valid title with
empty content (content error shows title was checked first and accepted). -/
theorem update_invalid_is_atomic_witness :
    (∃ p ∈ seedPosts, p.id = 1) ∧
    update_post 1 (some (.str "  ")) (some (.str "x")) seedPosts =
      (.error (.invalidInput "Title cannot be empty"), seedPosts) ∧
    update_post 1 (some (.str "T")) (some (.str " ")) seedPosts =
      (.error (.invalidInput "Content cannot be empty"), seedPosts) := by
  have hmem : ∃ p ∈ seedPosts, p.id = 1 := ⟨⟨1, "First post", "This is the first post."⟩, by decide, rfl⟩
  refine ⟨hmem, ?_, ?_⟩
  · exact (update_invalid_is_atomic 1 seedPosts hmem).1 (.str "  ") (some (.str "x")) (by decide)
  · exact (update_invalid_is_atomic 1 seedPosts hmem).2 (some (.str "T")) (.str " ")
      (by intro u hu; cases hu; decide) (by decide)

/-! ### C6: data-model invariants -/

/-- The spec's data-model invariants: pairwise-distinct ids, and no stored
post with an empty or whitespace-only title or content. -/
def ValidPosts (posts : List Post) : Prop :=
  (posts.map Post.id).Nodup ∧
  ∀ p ∈ posts, pystrip p.title ≠ "" ∧ pystrip p.content ≠ ""

instance : DecidablePred ValidPosts := fun _ =>
  inferInstanceAs (Decidable (_ ∧ _))

/-- C6: `Create`, `Update` and `Delete` each preserve both data-model
invariants (distinct ids; no empty/whitespace-only stored field). -/
theorem operations_preserve_invariants (posts : List Post)
    (h : ValidPosts posts) :
    (∀ titleOpt contentOpt,
        ValidPosts (create_post titleOpt contentOpt posts).2) ∧
    (∀ pid titleOpt contentOpt,
        ValidPosts (update_post pid titleOpt contentOpt posts).2) ∧
    (∀ pid, ValidPosts (delete_post pid posts).2) := by
  obtain ⟨hnd, hfields⟩ := h
  refine ⟨?_, ?_, ?_⟩
  · intro titleOpt contentOpt
    by_cases hc : pystrip (orEmpty titleOpt) = "" ∨ pystrip (orEmpty contentOpt) = ""
    · simpa [create_post, hc, ValidPosts] using ⟨hnd, hfields⟩
    · push_neg at hc
      obtain ⟨ht, hcc⟩ := hc
      have h2 : (create_post titleOpt contentOpt posts).2 =
          posts ++ [⟨next_id posts, pystrip (orEmpty titleOpt),
            pystrip (orEmpty contentOpt)⟩] := by
        simp [create_post, ht, hcc]
      rw [h2]
      constructor
      · rw [List.map_append, List.nodup_append]
        refine ⟨hnd, List.nodup_singleton _, ?_⟩
        intro a ha hb
        obtain ⟨q, hq, hqa⟩ := List.mem_map.mp ha
        simp only [List.map_cons, List.map_nil, List.mem_singleton] at hb
        subst hb
        have hlt := id_lt_next_id hq
        rw [hqa] at hlt
        exact absurd hlt (by simp)
      · intro r hr
        rcases List.mem_append.mp hr with hr' | hr'
        · exact hfields r hr'
        · simp only [List.mem_singleton] at hr'
          subst hr'
          exact ⟨by rw [pystrip_idem]; exact ht, by rw [pystrip_idem]; exact hcc⟩
  · intro pid titleOpt contentOpt
    cases hu : update_loop pid titleOpt contentOpt posts with
    | error e =>
      simpa [update_post, hu, ValidPosts] using ⟨hnd, hfields⟩
    | ok pr =>
      obtain ⟨q, l⟩ := pr
      have h2 : (update_post pid titleOpt contentOpt posts).2 = l := by
        simp [update_post, hu]
      rw [h2]
      obtain ⟨l₁, p, l₂, e1, e2, e3, e4, e5, e6, e7⟩ := update_loop_ok hu
      have hmap : l.map Post.id = posts.map Post.id := by
        rw [e1, e2]
        simp [e5]
      have hpmem : p ∈ posts := by
        rw [e1]; exact List.mem_append_right _ (List.mem_cons_self _ _)
      constructor
      · rw [hmap]; exact hnd
      · intro r hr
        rw [e2] at hr
        rcases List.mem_append.mp hr with hr' | hr'
        · exact hfields r (by rw [e1]; exact List.mem_append_left _ hr')
        · rcases List.mem_cons.mp hr' with rfl | hr''
          · constructor
            · rcases checkField_ok e6 with ⟨-, hq⟩ | ⟨v, -, hq, hne⟩
              · rw [hq]; exact (hfields p hpmem).1
              · rw [hq, pystrip_idem, ← hq]; exact hne
            · rcases checkField_ok e7 with ⟨-, hq⟩ | ⟨v, -, hq, hne⟩
              · rw [hq]; exact (hfields p hpmem).2
              · rw [hq, pystrip_idem, ← hq]; exact hne
          · exact hfields r
              (by rw [e1]
                  exact List.mem_append_right _ (List.mem_cons_of_mem _ hr''))
  · intro pid
    by_cases hlen :
        (posts.filter (fun p => p.id != pid)).length = posts.length
    · simpa [delete_post, hlen, ValidPosts] using ⟨hnd, hfields⟩
    · have h2 : (delete_post pid posts).2 =
          posts.filter (fun p => p.id != pid) := by
        simp [delete_post, hlen]
      rw [h2]
      constructor
      · exact hnd.sublist ((List.filter_sublist posts).map Post.id)
      · intro r hr
        exact hfields r (List.mem_of_mem_filter hr)

/-- Witness for C6: the seed collection is valid and stays valid under a
create, an update, and a delete. -/
theorem operations_preserve_invariants_witness :
    ValidPosts seedPosts ∧
    ValidPosts (create_post (some (.str "t")) (some (.str "c")) seedPosts).2 ∧
    ValidPosts (update_post 1 (some .null) none seedPosts).2 ∧
    ValidPosts (delete_post 2 seedPosts).2 := by
  have hv : ValidPosts seedPosts := by decide
  exact ⟨hv, (operations_preserve_invariants seedPosts hv).1 _ _,
    (operations_preserve_invariants seedPosts hv).2.1 1 _ _,
    (operations_preserve_invariants seedPosts hv).2.2 2⟩

/-! ### C7 / C8: delete -/

/-- C7: deleting a present id (ids distinct) removes exactly that post,
keeps every other post with its fields in the original relative order, and
answers success with no payload. -/
theorem delete_removes_exactly_the_post (l₁ l₂ : List Post) (p : Post)
    (hnd : ((l₁ ++ p :: l₂).map Post.id).Nodup) :
    delete_post p.id (l₁ ++ p :: l₂) = (.ok (), l₁ ++ l₂) := by
  rw [List.map_append, List.map_cons, List.nodup_append] at hnd
  obtain ⟨h1, h2, hdisj⟩ := hnd
  have hl₁ : ∀ r ∈ l₁, r.id ≠ p.id := fun r hr he =>
    hdisj (List.mem_map.mpr ⟨r, hr, rfl⟩)
      (by rw [he]; exact List.mem_cons_self _ _)
  have hl₂ : ∀ r ∈ l₂, r.id ≠ p.id := fun r hr he =>
    (List.nodup_cons.mp h2).1 (by rw [← he]; exact List.mem_map.mpr ⟨r, hr, rfl⟩)
  have hfilter : (l₁ ++ p :: l₂).filter (fun r => r.id != p.id) = l₁ ++ l₂ := by
    rw [List.filter_append, List.filter_cons]
    simp only [bne_self_eq_false, Bool.false_eq_true, if_false]
    rw [List.filter_eq_self.mpr (fun a ha => by simp [hl₁ a ha]),
        List.filter_eq_self.mpr (fun a ha => by simp [hl₂ a ha])]
  have hlen : (l₁ ++ l₂).length ≠ (l₁ ++ p :: l₂).length := by
    simp only [List.length_append, List.length_cons]
    omega
  simp [delete_post, hfilter, hlen]

/-- Witness for C7: delete id 2 from the seed collection. -/
theorem delete_removes_exactly_the_post_witness :
    (((([⟨1, "First post", "This is the first post."⟩] : List Post) ++
        (⟨2, "Second post", "This is the second post."⟩ : Post) :: []).map
          Post.id).Nodup) ∧
    delete_post 2
        (([⟨1, "First post", "This is the first post."⟩] : List Post) ++
          (⟨2, "Second post", "This is the second post."⟩ : Post) :: []) =
      (.ok (), ([⟨1, "First post", "This is the first post."⟩] : List Post) ++ []) :=
  ⟨by decide,
   delete_removes_exactly_the_post
     [⟨1, "First post", "This is the first post."⟩] []
     ⟨2, "Second post", "This is the second post."⟩ (by decide)⟩

/-- C8: deleting an absent id answers `NotFound` and persists the input
collection unchanged. -/
theorem delete_absent_id_not_found (pid : Nat) (posts : List Post)
    (h : ∀ p ∈ posts, p.id ≠ pid) :
    delete_post pid posts = (.error .notFound, posts) := by
  have hfilter : posts.filter (fun p => p.id != pid) = posts :=
    List.filter_eq_self.mpr (fun a ha => by simp [h a ha])
  simp [delete_post, hfilter]

/-- Witness for C8: id 99 is absent from the seed collection. -/
theorem delete_absent_id_not_found_witness :
    (∀ p ∈ seedPosts, p.id ≠ 99) ∧
    delete_post 99 seedPosts = (.error .notFound, seedPosts) :=
  ⟨by decide, delete_absent_id_not_found 99 seedPosts (by decide)⟩

/-! ### C5: search with no effective query -/

/-- C5: when both query strings are absent or whitespace-only after
trimming, `Search` returns the empty sequence, also on non-empty
collections. -/
theorem search_no_query_returns_empty (titleArg contentArg : Option String)
    (posts : List Post)
    (ht : pystrip (titleArg.getD "") = "")
    (hc : pystrip (contentArg.getD "") = "") :
    search_posts titleArg contentArg posts = [] := by
  simp [search_posts, ht, hc]

/-- Witness for C5: whitespace-only queries on the non-empty seed
collection. -/
theorem search_no_query_returns_empty_witness :
    pystrip ((none : Option String).getD "") = "" ∧
    pystrip ((some "  ").getD "") = "" ∧
    search_posts none (some "  ") seedPosts = [] :=
  ⟨by decide, by decide,
   search_no_query_returns_empty none (some "  ") seedPosts (by decide) (by decide)⟩

/-! ### C4: AND-combined, order-preserving search -/

/-- C4: with both trimmed queries non-empty, `Search` returns exactly the
posts whose lowercased title contains the lowercased title query and whose
lowercased content contains the lowercased content query, as a stable filter
of the collection (result order is a sublist of the original order). -/
theorem search_both_queries_and_semantics (tq cq : String) (posts : List Post)
    (ht : pystrip tq ≠ "") (hc : pystrip cq ≠ "") :
    search_posts (some tq) (some cq) posts =
      posts.filter (fun p =>
        pyIn (pylower (pystrip tq)) (pylower p.title) &&
        pyIn (pylower (pystrip cq)) (pylower p.content)) ∧
    (search_posts (some tq) (some cq) posts).Sublist posts := by
  have h1 : search_posts (some tq) (some cq) posts =
      posts.filter (fun p =>
        pyIn (pylower (pystrip tq)) (pylower p.title) &&
        pyIn (pylower (pystrip cq)) (pylower p.content)) := by
    have hne : ¬(pystrip tq = "" ∧ pystrip cq = "") := fun h => ht h.1
    simp only [search_posts, Option.getD_some, if_neg hne, if_pos ht,
      if_pos hc, List.filter_filter]
    apply List.filter_congr
    intro a _
    exact Bool.and_comm _ _
  exact ⟨h1, h1 ▸ List.filter_sublist posts⟩

/-- Witness for C4 on the seed collection: title query "POST" (matches both,
case-insensitively) and content query "second" (matches one). -/
theorem search_both_queries_and_semantics_witness :
    pystrip "POST" ≠ "" ∧ pystrip "second" ≠ "" ∧
    (search_posts (some "POST") (some "second") seedPosts =
      seedPosts.filter (fun p =>
        pyIn (pylower (pystrip "POST")) (pylower p.title) &&
        pyIn (pylower (pystrip "second")) (pylower p.content)) ∧
    (search_posts (some "POST") (some "second") seedPosts).Sublist seedPosts) :=
  ⟨by decide, by decide,
   search_both_queries_and_semantics "POST" "second" seedPosts (by decide) (by decide)⟩

/-! ### C10: str() coercion in update vs create -/

theorem update_loop_valid_title_none_content {pid : Nat} {v : JVal}
    {posts : List Post} (hmem : ∃ p ∈ posts, p.id = pid)
    (hv : pystrip (pyStr v) ≠ "") :
    ∃ q l, update_loop pid (some v) none posts = .ok (q, l) := by
  induction posts with
  | nil => simp at hmem
  | cons p rest ih =>
    rw [update_loop]
    by_cases hp : p.id = pid
    · rw [if_pos hp, checkField_some_valid hv]
      exact ⟨_, _, rfl⟩
    · rw [if_neg hp]
      obtain ⟨r, hr, hrid⟩ := hmem
      rcases List.mem_cons.mp hr with rfl | hr'
      · exact absurd hrid hp
      · obtain ⟨q, l, hok⟩ := ih ⟨r, hr', hrid⟩
        rw [hok]
        exact ⟨_, _, rfl⟩

/-- C10: on an existing post, `Update` rejects a supplied title exactly when
`str()` of its value trims to the empty string; since `str(None)` is the
non-empty string "None", a JSON `null` title is stored as "None", whereas
`Create` coerces a `null` title to `""` and rejects it. -/
theorem update_str_coercion_vs_create (pid : Nat) (v : JVal)
    (posts : List Post) (hmem : ∃ p ∈ posts, p.id = pid) :
    ((update_post pid (some v) none posts).1 =
        .error (.invalidInput "Title cannot be empty") ↔
      pystrip (pyStr v) = "") ∧
    update_post 1 (some .null) none seedPosts =
      (.ok ⟨1, "None", "This is the first post."⟩,
       [⟨1, "None", "This is the first post."⟩,
        ⟨2, "Second post", "This is the second post."⟩]) ∧
    create_post (some .null) (some (.str "x")) seedPosts =
      (.error (.invalidInput "Both 'title' and 'content' are required"),
       seedPosts) := by
  refine ⟨?_, by rfl, by rfl⟩
  constructor
  · intro hres
    by_contra hv
    obtain ⟨q, l, hok⟩ := update_loop_valid_title_none_content hmem hv
    rw [update_post, hok] at hres
    cases hres
  · intro hv
    rw [update_post, update_loop_title_empty hmem hv]

/-- Witness for C10: instantiated on the seed collection with an
empty-string title value. -/
theorem update_str_coercion_vs_create_witness :
    (∃ p ∈ seedPosts, p.id = 1) ∧
    (((update_post 1 (some (.str " ")) none seedPosts).1 =
        .error (.invalidInput "Title cannot be empty") ↔
      pystrip (pyStr (.str " ")) = "") ∧
    update_post 1 (some .null) none seedPosts =
      (.ok ⟨1, "None", "This is the first post."⟩,
       [⟨1, "None", "This is the first post."⟩,
        ⟨2, "Second post", "This is the second post."⟩]) ∧
    create_post (some .null) (some (.str "x")) seedPosts =
      (.error (.invalidInput "Both 'title' and 'content' are required"),
       seedPosts)) :=
  ⟨⟨⟨1, "First post", "This is the first post."⟩, by decide, rfl⟩,
   update_str_coercion_vs_create 1 (.str " ") seedPosts
     ⟨⟨1, "First post", "This is the first post."⟩, by decide, rfl⟩⟩

/-! ### Persistence adapter: the JSON file layer

`save_posts` writes `json.dumps(posts, indent=2, ensure_ascii=False)` to the
data file; `load_posts` reads the file back through `json.loads` (seeding it
first when absent).  We embed the file as `Option String` and the JSON
library calls as an executable serializer (`dumpsPosts`, producing exactly
the `indent=2` layout of `json.dumps`) and a recursive-descent parser
(`loadsPosts`) for the canonical serialized form, whitespace-tolerant
between tokens. -/

/-- Lowercase hex digit, as in Python's `"\\u%04x"` formatting. -/
def hexChar (n : Nat) : Char :=
  if n < 10 then Char.ofNat (48 + n) else Char.ofNat (87 + n)

/-- JSON string escaping of one character, `ensure_ascii=False`: only the
backslash, the double quote and control characters are escaped. -/
def escapeChar (c : Char) : List Char :=
  if c = '"' then ['\\', '"']
  else if c = '\\' then ['\\', '\\']
  else if c = '\n' then ['\\', 'n']
  else if c = '\t' then ['\\', 't']
  else if c = '\r' then ['\\', 'r']
  else if c = '\x08' then ['\\', 'b']
  else if c = '\x0c' then ['\\', 'f']
  else if c.toNat < 32 then
    ['\\', 'u', '0', '0', hexChar (c.toNat / 16), hexChar (c.toNat % 16)]
  else [c]

/-- JSON string escaping of a whole character list. -/
def escape : List Char → List Char
  | [] => []
  | c :: t => escapeChar c ++ escape t

/-- Decimal digit character. -/
def digChar (d : Nat) : Char := Char.ofNat (48 + d)

/-- Decimal rendering of a natural number, most significant digit first. -/
def natToDec (n : Nat) : List Char :=
  if n = 0 then ['0'] else ((Nat.digits 10 n).map digChar).reverse

/-- The whitespace characters the JSON grammar allows between tokens. -/
def jsonWs (c : Char) : Bool := c = ' ' || c = '\n' || c = '\t' || c = '\r'

def ws1 : List Char := [' ']

def ws2 : List Char := [' ', ' ']

def ws3 : List Char := ['\n', ' ', ' ']

def ws5 : List Char := ['\n', ' ', ' ', ' ', ' ']

def tokId : List Char := ['"', 'i', 'd', '"']

def tokTitle : List Char := ['"', 't', 'i', 't', 'l', 'e', '"']

def tokContent : List Char := ['"', 'c', 'o', 'n', 't', 'e', 'n', 't', '"']

/-- The members of one serialized post object after its opening brace,
exactly as `json.dumps` with `indent=2` lays them out. -/
def dumpBody (p : Post) : List Char :=
  ws5 ++ tokId ++ [':'] ++ ws1 ++ natToDec p.id ++
  [','] ++ ws5 ++ tokTitle ++ [':'] ++ ws1 ++ ['"'] ++
  escape p.title.data ++ ['"'] ++
  [','] ++ ws5 ++ tokContent ++ [':'] ++ ws1 ++ ['"'] ++
  escape p.content.data ++ ['"'] ++ ws3 ++ ['\x7d']

/-- One serialized post object (indentation, then braces and members). -/
def dumpPost (p : Post) : List Char := ws2 ++ ['\x7b'] ++ dumpBody p

/-- The `",\n"`-separated serialized posts after the first one. -/
def dumpTail : List Post → List Char
  | [] => []
  | q :: t => [','] ++ ['\n'] ++ dumpPost q ++ dumpTail t

/-- All serialized post objects joined by the `",\n"` item separator. -/
def dumpItems : List Post → List Char
  | [] => []
  | p :: t => dumpPost p ++ dumpTail t

/-- `json.dumps(posts, indent=2, ensure_ascii=False)`. -/
def dumpsPosts (posts : List Post) : String :=
  match posts with
  | [] => "[]"
  | _ => ⟨['['] ++ ['\n'] ++ dumpItems posts ++ ['\n'] ++ [']']⟩

def skipWs (l : List Char) : List Char := l.dropWhile jsonWs

/-- Consume an expected token. -/
def expectTok (tok l : List Char) : Option (List Char) :=
  if tok.isPrefixOf l then some (l.drop tok.length) else none

/-- Hex digit value (both cases accepted, as in `json.loads`). -/
def hexVal? (c : Char) : Option Nat :=
  if c.isDigit then some (c.toNat - 48)
  else if 'a' ≤ c ∧ c ≤ 'f' then some (c.toNat - 87)
  else if 'A' ≤ c ∧ c ≤ 'F' then some (c.toNat - 55)
  else none

/-- Decode a single-character escape (`\\u` handled separately). -/
def unescape? (e : Char) : Option Char :=
  if e = '"' then some '"'
  else if e = '\\' then some '\\'
  else if e = '/' then some '/'
  else if e = 'n' then some '\n'
  else if e = 't' then some '\t'
  else if e = 'r' then some '\r'
  else if e = 'b' then some '\x08'
  else if e = 'f' then some '\x0c'
  else none

/-- Parse a JSON string body up to and including the closing quote. -/
def parseStringBody : List Char → Option (List Char × List Char)
  | [] => none
  | c :: rest =>
    if c = '"' then some ([], rest)
    else if c = '\\' then
      match rest with
      | [] => none
      | e :: rest₂ =>
        if e = 'u' then
          match rest₂ with
          | h1 :: h2 :: h3 :: h4 :: rest₃ =>
            match hexVal? h1, hexVal? h2, hexVal? h3, hexVal? h4 with
            | some a1, some a2, some a3, some a4 =>
              match parseStringBody rest₃ with
              | some (s, r) =>
                some (Char.ofNat (((a1 * 16 + a2) * 16 + a3) * 16 + a4) :: s, r)
              | none => none
            | _, _, _, _ => none
          | _ => none
        else
          match unescape? e with
          | some u =>
            match parseStringBody rest₂ with
            | some (s, r) => some (u :: s, r)
            | none => none
          | none => none
    else
      match parseStringBody rest with
      | some (s, r) => some (c :: s, r)
      | none => none

/-- Parse a run of decimal digits. -/
def parseNatTok (l : List Char) : Option (Nat × List Char) :=
  let ds := l.takeWhile Char.isDigit
  if ds.isEmpty then none
  else some (ds.foldl (fun a c => 10 * a + (c.toNat - 48)) 0, l.drop ds.length)

/-- Parse the opening brace and the `"id": <n>` member. -/
def parseIdPart (l : List Char) : Option (Nat × List Char) := do
  let l1 ← expectTok ['\x7b'] (skipWs l)
  let l2 ← expectTok tokId (skipWs l1)
  let l3 ← expectTok [':'] (skipWs l2)
  parseNatTok (skipWs l3)

/-- Parse a `, <key>: "<string>"` member. -/
def parseStrPart (tok : List Char) (l : List Char) :
    Option (List Char × List Char) := do
  let l5 ← expectTok [','] (skipWs l)
  let l6 ← expectTok tok (skipWs l5)
  let l7 ← expectTok [':'] (skipWs l6)
  let l8 ← expectTok ['"'] (skipWs l7)
  parseStringBody l8

/-- Parse one `{"id": …, "title": …, "content": …}` object. -/
def parsePost (l : List Char) : Option (Post × List Char) := do
  let (n, l4) ← parseIdPart l
  let (t, l9) ← parseStrPart tokTitle l4
  let (c, l14) ← parseStrPart tokContent l9
  let l15 ← expectTok ['\x7d'] (skipWs l14)
  return (⟨n, ⟨t⟩, ⟨c⟩⟩, l15)

/-- Parse the remaining `, <post>` items of the array, or its closing
bracket.  `fuel` bounds the recursion by the input length. -/
def parseItems : Nat → List Char → Option (List Post × List Char)
  | 0, _ => none
  | fuel + 1, l =>
    match expectTok [']'] (skipWs l) with
    | some r => some ([], r)
    | none => do
      let r ← expectTok [','] (skipWs l)
      let (p, r₂) ← parsePost r
      let (ps, r₃) ← parseItems fuel r₂
      some (p :: ps, r₃)

/-- Parse the whole array of posts. -/
def parsePostsTop (l : List Char) : Option (List Post × List Char) := do
  let r ← expectTok ['['] (skipWs l)
  match expectTok [']'] (skipWs r) with
  | some r₂ => some ([], r₂)
  | none => do
    let (p, r₂) ← parsePost r
    let (ps, r₃) ← parseItems (r₂.length + 1) r₂
    some (p :: ps, r₃)

/-- `json.loads` on the canonical serialized form: the parsed collection,
requiring only whitespace after the closing bracket. -/
def loadsPosts (s : String) : Option (List Post) :=
  match parsePostsTop s.data with
  | some (ps, rest) => if skipWs rest = [] then some ps else none
  | none => none

/-- `save_posts`: overwrite the data file with the serialized collection. -/
def save_posts (posts : List Post) (_file : Option String) : Option String :=
  some (dumpsPosts posts)

/-- `load_posts`: seed the file when absent, then read and decode it.
Returns the decoded collection (`none` models a decode error) and the file
state afterwards. -/
def load_posts : Option String → Option (List Post) × Option String
  | none => (loadsPosts (dumpsPosts seedPosts), some (dumpsPosts seedPosts))
  | some txt => (loadsPosts txt, some txt)

/-! ### Round-trip of the serialized form through the parser -/

theorem skipWs_ws1 (l : List Char) : skipWs (ws1 ++ l) = skipWs l := rfl

theorem skipWs_ws2 (l : List Char) : skipWs (ws2 ++ l) = skipWs l := rfl

theorem skipWs_ws3 (l : List Char) : skipWs (ws3 ++ l) = skipWs l := rfl

theorem skipWs_ws5 (l : List Char) : skipWs (ws5 ++ l) = skipWs l := rfl

theorem skipWs_nl (l : List Char) : skipWs ('\n' :: l) = skipWs l := rfl

theorem skipWs_lb (l : List Char) : skipWs ('\x7b' :: l) = '\x7b' :: l := rfl

theorem skipWs_colon (l : List Char) : skipWs (':' :: l) = ':' :: l := rfl

theorem skipWs_comma (l : List Char) : skipWs (',' :: l) = ',' :: l := rfl

theorem skipWs_quote (l : List Char) : skipWs ('"' :: l) = '"' :: l := rfl

theorem skipWs_tokId (l : List Char) : skipWs (tokId ++ l) = tokId ++ l := rfl

theorem skipWs_tokTitle (l : List Char) :
    skipWs (tokTitle ++ l) = tokTitle ++ l := rfl

theorem skipWs_tokContent (l : List Char) :
    skipWs (tokContent ++ l) = tokContent ++ l := rfl

theorem expectTok_self (tok l : List Char) : expectTok tok (tok ++ l) = some l := by
  rw [expectTok, if_pos, List.drop_left]
  exact List.isPrefixOf_iff_prefix.mpr (List.prefix_append tok l)

theorem expectTok_lb (l : List Char) : expectTok ['\x7b'] ('\x7b' :: l) = some l :=
  expectTok_self ['\x7b'] l

theorem expectTok_rb (l : List Char) : expectTok ['\x7d'] ('\x7d' :: l) = some l :=
  expectTok_self ['\x7d'] l

theorem expectTok_lbracket (l : List Char) : expectTok ['['] ('[' :: l) = some l :=
  expectTok_self ['['] l

theorem expectTok_rbracket (l : List Char) : expectTok [']'] (']' :: l) = some l :=
  expectTok_self [']'] l

theorem expectTok_colon (l : List Char) : expectTok [':'] (':' :: l) = some l :=
  expectTok_self [':'] l

theorem expectTok_comma (l : List Char) : expectTok [','] (',' :: l) = some l :=
  expectTok_self [','] l

theorem expectTok_quote (l : List Char) : expectTok ['"'] ('"' :: l) = some l :=
  expectTok_self ['"'] l

theorem expectTok_rbracket_comma (l : List Char) :
    expectTok [']'] (',' :: l) = none := rfl

theorem expectTok_rbracket_lb (l : List Char) :
    expectTok [']'] ('\x7b' :: l) = none := rfl

theorem digChar_isDigit : ∀ d < 10, (digChar d).isDigit = true := by decide

theorem digChar_toNat : ∀ d < 10, (digChar d).toNat = 48 + d := by decide

theorem natToDec_ne_nil (n : Nat) : natToDec n ≠ [] := by
  unfold natToDec
  split
  · simp
  · simp [List.reverse_eq_nil_iff, Nat.digits_ne_nil_iff_ne_zero, *]

theorem natToDec_all_digits (n : Nat) : ∀ c ∈ natToDec n, c.isDigit = true := by
  intro c hc
  unfold natToDec at hc
  split at hc
  · simp at hc
    subst hc
    decide
  · rw [List.mem_reverse, List.mem_map] at hc
    obtain ⟨d, hd, rfl⟩ := hc
    exact digChar_isDigit d (Nat.digits_lt_base (by norm_num) hd)

theorem jsonWs_eq_false_of_isDigit {c : Char} (h : c.isDigit = true) :
    jsonWs c = false := by
  by_contra h'
  have h2 : jsonWs c = true := by
    cases hj : jsonWs c
    · exact absurd hj h'
    · rfl
  have : c = ' ' ∨ c = '\n' ∨ c = '\t' ∨ c = '\r' := by
    simpa [jsonWs, or_assoc] using h2
  rcases this with rfl | rfl | rfl | rfl <;> simp at h

theorem skipWs_natToDec (n : Nat) (l : List Char) :
    skipWs (natToDec n ++ l) = natToDec n ++ l := by
  cases hh : natToDec n with
  | nil => exact absurd hh (natToDec_ne_nil n)
  | cons c t =>
    have hc : c.isDigit = true := by
      apply natToDec_all_digits n
      rw [hh]
      exact List.mem_cons_self _ _
    simp [skipWs, List.dropWhile_cons, jsonWs_eq_false_of_isDigit hc]

theorem takeWhile_append_of_all {α : Type} {p : α → Bool} {l₁ l₂ : List α}
    (h : ∀ a ∈ l₁, p a = true) :
    (l₁ ++ l₂).takeWhile p = l₁ ++ l₂.takeWhile p := by
  induction l₁ with
  | nil => simp
  | cons a t ih =>
    have ha : p a = true := h a (List.mem_cons_self _ _)
    simp [List.takeWhile_cons, ha,
      ih (fun x hx => h x (List.mem_cons_of_mem _ hx))]

theorem takeWhile_cons_false {α : Type} {p : α → Bool} {c : α} {l : List α}
    (h : p c = false) : (c :: l).takeWhile p = [] := by
  simp [List.takeWhile_cons, h]

theorem foldr_decode {L : List Nat} (h : ∀ d ∈ L, d < 10) :
    L.foldr (fun d a => 10 * a + ((digChar d).toNat - 48)) 0 =
      Nat.ofDigits 10 L := by
  induction L with
  | nil => simp [Nat.ofDigits]
  | cons d t ih =>
    have hd : (digChar d).toNat = 48 + d :=
      digChar_toNat d (h d (List.mem_cons_self _ _))
    rw [List.foldr_cons, Nat.ofDigits_cons,
      ih (fun x hx => h x (List.mem_cons_of_mem _ hx)), hd]
    omega

theorem natToDec_foldl (n : Nat) :
    (natToDec n).foldl (fun a c => 10 * a + (c.toNat - 48)) 0 = n := by
  unfold natToDec
  split
  · subst ‹n = 0›
    decide
  · rw [List.foldl_reverse, List.foldr_map]
    have hrw := foldr_decode (L := Nat.digits 10 n)
      (fun d hd => Nat.digits_lt_base (by norm_num) hd)
    rw [hrw, Nat.ofDigits_digits]

theorem parseNatTok_natToDec (n : Nat) (c : Char) (R : List Char)
    (hc : c.isDigit = false) :
    parseNatTok (natToDec n ++ c :: R) = some (n, c :: R) := by
  rw [parseNatTok]
  have htake : (natToDec n ++ c :: R).takeWhile Char.isDigit = natToDec n := by
    rw [takeWhile_append_of_all (natToDec_all_digits n),
      takeWhile_cons_false hc, List.append_nil]
  rw [htake]
  rw [if_neg (by simp [List.isEmpty_iff, natToDec_ne_nil n])]
  rw [natToDec_foldl, List.drop_left]

theorem parseStringBody_escape (s r : List Char) :
    parseStringBody (escape s ++ '"' :: r) = some (s, r) := by
  induction s with
  | nil =>
    show parseStringBody ('"' :: r) = some ([], r)
    unfold parseStringBody
    simp
  | cons c t ih =>
    rw [escape, List.append_assoc]
    by_cases h1 : c = '"'
    · subst h1
      show parseStringBody ('\\' :: '"' :: (escape t ++ '"' :: r)) = _
      unfold parseStringBody
      simp [unescape?, ih]
    by_cases h2 : c = '\\'
    · subst h2
      show parseStringBody ('\\' :: '\\' :: (escape t ++ '"' :: r)) = _
      unfold parseStringBody
      simp [unescape?, ih]
    by_cases h3 : c = '\n'
    · subst h3
      show parseStringBody ('\\' :: 'n' :: (escape t ++ '"' :: r)) = _
      unfold parseStringBody
      simp [unescape?, ih]
    by_cases h4 : c = '\t'
    · subst h4
      show parseStringBody ('\\' :: 't' :: (escape t ++ '"' :: r)) = _
      unfold parseStringBody
      simp [unescape?, ih]
    by_cases h5 : c = '\r'
    · subst h5
      show parseStringBody ('\\' :: 'r' :: (escape t ++ '"' :: r)) = _
      unfold parseStringBody
      simp [unescape?, ih]
    by_cases h6 : c = '\x08'
    · subst h6
      show parseStringBody ('\\' :: 'b' :: (escape t ++ '"' :: r)) = _
      unfold parseStringBody
      simp [unescape?, ih]
    by_cases h7 : c = '\x0c'
    · subst h7
      show parseStringBody ('\\' :: 'f' :: (escape t ++ '"' :: r)) = _
      unfold parseStringBody
      simp [unescape?, ih]
    by_cases h8 : c.toNat < 32
    · have hesc : escapeChar c =
          ['\\', 'u', '0', '0', hexChar (c.toNat / 16), hexChar (c.toNat % 16)] := by
        unfold escapeChar
        rw [if_neg h1, if_neg h2, if_neg h3, if_neg h4, if_neg h5, if_neg h6,
          if_neg h7, if_pos h8]
      rw [hesc]
      have hx : ∀ m < 16, hexVal? (hexChar m) = some m := by decide
      have hx1 : hexVal? (hexChar (c.toNat / 16)) = some (c.toNat / 16) :=
        hx _ (by omega)
      have hx2 : hexVal? (hexChar (c.toNat % 16)) = some (c.toNat % 16) :=
        hx _ (Nat.mod_lt _ (by norm_num))
      have h0 : hexVal? '0' = some 0 := by decide
      show parseStringBody ('\\' :: 'u' :: '0' :: '0' ::
        hexChar (c.toNat / 16) :: hexChar (c.toNat % 16) ::
        (escape t ++ '"' :: r)) = _
      unfold parseStringBody
      simp [h0, hx1, hx2, ih]
      have h16 : c.toNat / 16 * 16 + c.toNat % 16 = c.toNat := by omega
      rw [h16, Char.ofNat_toNat]
    · have hesc : escapeChar c = [c] := by
        unfold escapeChar
        rw [if_neg h1, if_neg h2, if_neg h3, if_neg h4, if_neg h5, if_neg h6,
          if_neg h7, if_neg h8]
      rw [hesc]
      show parseStringBody (c :: (escape t ++ '"' :: r)) = _
      unfold parseStringBody
      simp [h1, h2, ih]

theorem skipWs_rb (l : List Char) : skipWs ('\x7d' :: l) = '\x7d' :: l := rfl

theorem skipWs_lbracket (l : List Char) : skipWs ('[' :: l) = '[' :: l := rfl

theorem skipWs_rbracket (l : List Char) : skipWs (']' :: l) = ']' :: l := rfl

theorem parseIdPart_dump (n : Nat) (R : List Char) :
    parseIdPart (ws2 ++ '\x7b' :: (ws5 ++ (tokId ++ ':' ::
      (ws1 ++ (natToDec n ++ ',' :: R))))) = some (n, ',' :: R) := by
  rw [parseIdPart]
  rw [skipWs_ws2, skipWs_lb, expectTok_lb]
  simp only [Option.bind_eq_bind, Option.some_bind]
  rw [skipWs_ws5, skipWs_tokId, expectTok_self]
  simp only [Option.some_bind]
  rw [skipWs_colon, expectTok_colon]
  simp only [Option.some_bind]
  rw [skipWs_ws1, skipWs_natToDec, parseNatTok_natToDec n ',' R (by decide)]

theorem parseStrPart_dump (tok : List Char)
    (htok : ∀ l, skipWs (tok ++ l) = tok ++ l) (s R : List Char) :
    parseStrPart tok (',' :: (ws5 ++ (tok ++ ':' ::
      (ws1 ++ '"' :: (escape s ++ '"' :: R))))) = some (s, R) := by
  rw [parseStrPart]
  rw [skipWs_comma, expectTok_comma]
  simp only [Option.bind_eq_bind, Option.some_bind]
  rw [skipWs_ws5, htok, expectTok_self]
  simp only [Option.some_bind]
  rw [skipWs_colon, expectTok_colon]
  simp only [Option.some_bind]
  rw [skipWs_ws1, skipWs_quote, expectTok_quote]
  simp only [Option.some_bind]
  rw [parseStringBody_escape]

theorem parsePost_dump (p : Post) (R : List Char) :
    parsePost (dumpPost p ++ R) = some (p, R) := by
  rw [parsePost, dumpPost, dumpBody]
  simp only [List.append_assoc, List.singleton_append, List.cons_append,
    List.nil_append]
  rw [parseIdPart_dump]
  simp only [Option.bind_eq_bind, Option.some_bind]
  rw [parseStrPart_dump tokTitle skipWs_tokTitle]
  simp only [Option.some_bind]
  rw [parseStrPart_dump tokContent skipWs_tokContent]
  simp only [Option.some_bind]
  rw [skipWs_ws3, skipWs_rb, expectTok_rb]
  simp only [Option.some_bind]
  rfl

theorem parseIdPart_nl (W : List Char) :
    parseIdPart ('\n' :: W) = parseIdPart W := by
  rw [parseIdPart, parseIdPart, skipWs_nl]

theorem parsePost_nl (W : List Char) :
    parsePost ('\n' :: W) = parsePost W := by
  rw [parsePost, parsePost, parseIdPart_nl]

theorem parseItems_dumpTail (t : List Post) (rest : List Char) :
    ∀ fuel, t.length < fuel →
      parseItems fuel (dumpTail t ++ '\n' :: ']' :: rest) = some (t, rest) := by
  induction t with
  | nil =>
    intro fuel hf
    cases fuel with
    | zero => omega
    | succ f =>
      rw [dumpTail, List.nil_append, parseItems]
      rw [skipWs_nl, skipWs_rbracket, expectTok_rbracket]
  | cons q t' ih =>
    intro fuel hf
    cases fuel with
    | zero => omega
    | succ f =>
      rw [dumpTail, parseItems]
      simp only [List.append_assoc, List.singleton_append, List.cons_append,
        List.nil_append]
      rw [skipWs_comma, expectTok_rbracket_comma]
      have hf' : t'.length < f := by
        exact Nat.lt_of_succ_lt_succ (by simpa using hf)
      simp only [expectTok_comma, Option.bind_eq_bind, Option.some_bind,
        parsePost_nl, parsePost_dump, ih f hf']

theorem skipWs_dumpPost (p : Post) (z : List Char) :
    skipWs (dumpPost p ++ z) = '\x7b' :: (dumpBody p ++ z) := by
  rw [dumpPost]
  simp only [List.append_assoc, List.singleton_append, List.cons_append,
    List.nil_append]
  rw [skipWs_ws2, skipWs_lb]

theorem length_le_dumpTail (t : List Post) : t.length ≤ (dumpTail t).length := by
  induction t with
  | nil => simp [dumpTail]
  | cons q t' ih =>
    rw [dumpTail]
    simp only [List.length_cons, List.length_append]
    omega

theorem parsePostsTop_dump (p : Post) (t : List Post) (rest : List Char) :
    parsePostsTop ('[' :: '\n' ::
      (dumpPost p ++ (dumpTail t ++ '\n' :: ']' :: rest))) =
      some (p :: t, rest) := by
  rw [parsePostsTop]
  rw [skipWs_lbracket, expectTok_lbracket]
  simp only [Option.bind_eq_bind, Option.some_bind]
  rw [skipWs_nl, skipWs_dumpPost, expectTok_rbracket_lb]
  have hlen : t.length <
      (dumpTail t ++ '\n' :: ']' :: rest).length + 1 := by
    have := length_le_dumpTail t
    simp only [List.length_append]
    omega
  simp only [parsePost_nl, parsePost_dump, Option.bind_eq_bind,
    Option.some_bind, parseItems_dumpTail t rest _ hlen]

theorem loadsPosts_dumpsPosts (posts : List Post) :
    loadsPosts (dumpsPosts posts) = some posts := by
  cases posts with
  | nil => rfl
  | cons p t =>
    rw [loadsPosts]
    have hdata : (dumpsPosts (p :: t)).data =
        '[' :: '\n' :: (dumpPost p ++ (dumpTail t ++ '\n' :: ']' :: [])) := by
      simp [dumpsPosts, dumpItems]
    rw [hdata, parsePostsTop_dump]
    rfl

/-- C9: `SaveAll` then `LoadAll` returns the saved collection unchanged. -/
theorem save_then_load_roundtrip (x : List Post) (file : Option String)
    (_hx : ValidPosts x) :
    load_posts (save_posts x file) = (some x, some (dumpsPosts x)) := by
  rw [save_posts, load_posts, loadsPosts_dumpsPosts]

/-- Witness for C9 on the seed collection. -/
theorem save_then_load_roundtrip_witness :
    ValidPosts seedPosts ∧
    load_posts (save_posts seedPosts none) =
      (some seedPosts, some (dumpsPosts seedPosts)) :=
  ⟨by decide, save_then_load_roundtrip seedPosts none (by decide)⟩
